import Mathlib

/-!
Verification of the "Wheel of Destiny" engine
(src/creatures/players/wheel/player_wheel.hpp).

The structured values stored in the key-value store (`ValueWrapper` in the
source) are modelled by an inductive `Value`; the scoped key-value store is
modelled as a function from keys to optional values.  C++ enumeration values
that the source only ever casts to/from `IntType` are represented directly by
their integer value.
-/

/-- Model of `ValueWrapper`: a structured value that is a string, a boolean,
an integer, or a map from string keys to values. -/
inductive Value where
  | str : String → Value
  | boolean : Bool → Value
  | int : Int → Value
  | map : List (String × Value) → Value

/-- `val.get<MapType>()`: the map contents, or the empty map when the value
holds a different alternative. -/
def Value.getMap : Value → List (String × Value)
  | .map m => m
  | _ => []

/-- `val.get<BooleanType>()`: the boolean contents, or `false` by default. -/
def Value.getBool : Value → Bool
  | .boolean b => b
  | _ => false

/-- `val.get<IntType>()`: the integer contents, or `0` by default. -/
def Value.getInt : Value → Int
  | .int i => i
  | _ => 0

/-- Lookup of a key in a map value (`map[key]` on a key that is present). -/
def mapLookup (m : List (String × Value)) (k : String) : Option Value :=
  match m with
  | [] => none
  | (k', v) :: rest => if k' = k then some v else mapLookup rest k

/-- `map[key]->get<BooleanType>()` for a map read during deserialization. -/
def mapGetBool (m : List (String × Value)) (k : String) : Bool :=
  ((mapLookup m k).getD (Value.map [])).getBool

/-- `map[key]->get<IntType>()` for a map read during deserialization. -/
def mapGetInt (m : List (String × Value)) (k : String) : Int :=
  ((mapLookup m k).getD (Value.map [])).getInt

/-- `struct PlayerWheelGem`.  The enum-typed fields (`WheelGemAffinity_t`,
`WheelGemQuality_t`, `WheelGemBasicModifier_t`, `WheelGemSupremeModifier_t`)
are represented by the integer value the source casts them to. -/
structure PlayerWheelGem where
  uuid : String
  locked : Bool
  affinity : Int
  quality : Int
  basicModifier1 : Int
  basicModifier2 : Int
  supremeModifier : Int
deriving DecidableEq, Repr

/-- The value-initialized gem produced by `return {}` in `load` and
`deserialize`: the sentinel "empty" gem. -/
def PlayerWheelGem.empty : PlayerWheelGem :=
  { uuid := ""
    locked := false
    affinity := 0
    quality := 0
    basicModifier1 := 0
    basicModifier2 := 0
    supremeModifier := 0 }

/-- `PlayerWheelGem::serialize`. -/
def PlayerWheelGem.serialize (g : PlayerWheelGem) : Value :=
  Value.map
    [ ("uuid", Value.str g.uuid)
    , ("locked", Value.boolean g.locked)
    , ("affinity", Value.int g.affinity)
    , ("quality", Value.int g.quality)
    , ("basicModifier1", Value.int g.basicModifier1)
    , ("basicModifier2", Value.int g.basicModifier2)
    , ("supremeModifier", Value.int g.supremeModifier) ]

/-- `PlayerWheelGem::deserialize`. -/
def PlayerWheelGem.deserialize (uuid : String) (val : Value) : PlayerWheelGem :=
  let map := val.getMap
  if map.isEmpty then
    PlayerWheelGem.empty
  else
    { uuid := uuid
      locked := mapGetBool map "locked"
      affinity := mapGetInt map "affinity"
      quality := mapGetInt map "quality"
      basicModifier1 := mapGetInt map "basicModifier1"
      basicModifier2 := mapGetInt map "basicModifier2"
      supremeModifier := mapGetInt map "supremeModifier" }

/-- `PlayerWheelGem::load`.  `kv` models the scoped sub-store
`kv->scoped("revealed")`: a function from keys to optional stored values. -/
def PlayerWheelGem.load (kv : String → Option Value) (uuid : String) : PlayerWheelGem :=
  match kv uuid with
  | none => PlayerWheelGem.empty
  | some val => PlayerWheelGem.deserialize uuid val

/-! ## Per-spell bonuses (`WheelSpells::Bonus`, `addSpellBonus`, `getSpellBonus`)

`WheelSpells::Bonus` is declared in `wheel_gems.hpp`; the field inventory below
is exactly the one the source reads and writes in `addSpellBonus` and
`getSpellBonus`.  Numeric fields are represented by `Int`. -/

/-- The `decrease` group of `WheelSpells::Bonus`. -/
structure BonusDecrease where
  cooldown : Int
  manaCost : Int
  secondaryGroupCooldown : Int
deriving DecidableEq, Repr

/-- The `increase` group of `WheelSpells::Bonus` (field `aditionalTarget`
keeps the source's spelling). -/
structure BonusIncrease where
  aditionalTarget : Int
  area : Bool
  criticalChance : Int
  criticalDamage : Int
  damage : Int
  damageReduction : Int
  duration : Int
  heal : Int
deriving DecidableEq, Repr

/-- The `leech` group of `WheelSpells::Bonus`. -/
structure BonusLeech where
  life : Int
  mana : Int
deriving DecidableEq, Repr

/-- `WheelSpells::Bonus`. -/
structure Bonus where
  decrease : BonusDecrease
  increase : BonusIncrease
  leech : BonusLeech
deriving DecidableEq, Repr

/-- The value-initialized `WheelSpells::Bonus` that
`std::unordered_map::operator[]` inserts for an absent key. -/
def Bonus.default : Bonus :=
  { decrease := { cooldown := 0, manaCost := 0, secondaryGroupCooldown := 0 }
    increase :=
      { aditionalTarget := 0, area := false, criticalChance := 0, criticalDamage := 0
        damage := 0, damageReduction := 0, duration := 0, heal := 0 }
    leech := { life := 0, mana := 0 } }

/-- The map `m_spellsBonuses` (`std::unordered_map<std::string,
WheelSpells::Bonus>`), modelled as a function from spell names to optional
bonus records. -/
def SpellBonusMap : Type := String → Option Bonus

/-- One C++ statement `m_spellsBonuses[spellName].field += ...` /
`... = ...`: read the record at the key (default-inserting on absence, as
`operator[]` does), rewrite one field, store it back. -/
def mapUpdate (m : SpellBonusMap) (k : String) (f : Bonus → Bonus) : SpellBonusMap :=
  fun x => if x = k then some (f ((m k).getD Bonus.default)) else m x

/-- `m_spellsBonuses[spellName] = bonus`. -/
def mapInsert (m : SpellBonusMap) (k : String) (b : Bonus) : SpellBonusMap :=
  fun x => if x = k then some b else m x

/-- `PlayerWheel::addSpellBonus`, statement by statement: when the key is
present, thirteen in-place field updates (additive, except the plain
assignment to `increase.area`); otherwise a fresh insertion of `bonus`. -/
def addSpellBonus (m : SpellBonusMap) (spellName : String) (bonus : Bonus) : SpellBonusMap :=
  if (m spellName).isSome then
    let m1 := mapUpdate m spellName fun b =>
      { b with decrease.cooldown := b.decrease.cooldown + bonus.decrease.cooldown }
    let m2 := mapUpdate m1 spellName fun b =>
      { b with decrease.manaCost := b.decrease.manaCost + bonus.decrease.manaCost }
    let m3 := mapUpdate m2 spellName fun b =>
      { b with decrease.secondaryGroupCooldown := b.decrease.secondaryGroupCooldown + bonus.decrease.secondaryGroupCooldown }
    let m4 := mapUpdate m3 spellName fun b =>
      { b with increase.aditionalTarget := b.increase.aditionalTarget + bonus.increase.aditionalTarget }
    let m5 := mapUpdate m4 spellName fun b =>
      { b with increase.area := bonus.increase.area }
    let m6 := mapUpdate m5 spellName fun b =>
      { b with increase.criticalChance := b.increase.criticalChance + bonus.increase.criticalChance }
    let m7 := mapUpdate m6 spellName fun b =>
      { b with increase.criticalDamage := b.increase.criticalDamage + bonus.increase.criticalDamage }
    let m8 := mapUpdate m7 spellName fun b =>
      { b with increase.damage := b.increase.damage + bonus.increase.damage }
    let m9 := mapUpdate m8 spellName fun b =>
      { b with increase.damageReduction := b.increase.damageReduction + bonus.increase.damageReduction }
    let m10 := mapUpdate m9 spellName fun b =>
      { b with increase.duration := b.increase.duration + bonus.increase.duration }
    let m11 := mapUpdate m10 spellName fun b =>
      { b with increase.heal := b.increase.heal + bonus.increase.heal }
    let m12 := mapUpdate m11 spellName fun b =>
      { b with leech.life := b.leech.life + bonus.leech.life }
    let m13 := mapUpdate m12 spellName fun b =>
      { b with leech.mana := b.leech.mana + bonus.leech.mana }
    m13
  else
    mapInsert m spellName bonus

/-- `WheelSpellBoost_t`, restricted to the alternatives `getSpellBonus`
dispatches on; `other` stands for any further enumerator, which the switch
sends to its `default` branch. -/
inductive WheelSpellBoost where
  | cooldown
  | mana
  | secondaryGroupCooldown
  | criticalChance
  | criticalDamage
  | damage
  | damageReduction
  | heal
  | lifeLeech
  | manaLeech
  | other
deriving DecidableEq, Repr

/-- `PlayerWheel::getSpellBonus`. -/
def getSpellBonus (m : SpellBonusMap) (spellName : String) (boost : WheelSpellBoost) : Int :=
  match m spellName with
  | none => 0
  | some bonus =>
    match boost with
    | .cooldown => bonus.decrease.cooldown
    | .mana => bonus.decrease.manaCost
    | .secondaryGroupCooldown => bonus.decrease.secondaryGroupCooldown
    | .criticalChance => bonus.increase.criticalChance
    | .criticalDamage => bonus.increase.criticalDamage
    | .damage => bonus.increase.damage
    | .damageReduction => bonus.increase.damageReduction
    | .heal => bonus.increase.heal
    | .lifeLeech => bonus.leech.life
    | .manaLeech => bonus.leech.mana
    | .other => 0

/-! ## Wheel points, slot validation, retry passes, gem vault operations

The bodies of `getWheelPoints`, `checkSavePointsBySlotType`,
`saveSlotPointsHandleRetryErrors`, `destroyGem`, `switchGemDomain` and
`toggleGemLock` live in `player_wheel.cpp`, which is not among the provided
sources; the header carries only their declarations, doc comments and the
constants `m_minLevelToStartCountPoints` / `m_pointsPerLevel`.  They are
modelled from the specification below. -/

/-- `const uint16_t m_minLevelToStartCountPoints = 50`. -/
def m_minLevelToStartCountPoints : Nat := 50

/-- `uint16_t m_pointsPerLevel = 1`. -/
def m_pointsPerLevel : Nat := 1

/-- Modelled from the spec: the body of `PlayerWheel::getWheelPoints` is not
among the provided sources.  Spec §4.1: base points =
`max(0, level − minLevelThreshold) × pointsPerLevel`; if `includeExtra`, add
extra points granted by external sources.  `extraPoints` stands for
`getExtraPoints()`. -/
def getWheelPoints (level : Nat) (extraPoints : Nat) (includeExtraPoints : Bool) : Nat :=
  (level - m_minLevelToStartCountPoints) * m_pointsPerLevel
    + (if includeExtraPoints then extraPoints else 0)

/-- The slot-allocation state `m_wheelSlots` together with the inputs
`checkSavePointsBySlotType` validates against: the per-slot cap table
(`getMaxPointsPerSlot`) and the total point budget (`getWheelPoints(true)`). -/
structure WheelState where
  m_wheelSlots : Fin 37 → Nat
  maxPointsPerSlot : Fin 37 → Nat
  totalPoints : Nat

/-- `getUnusedPoints()` = total points minus the sum of allocated points
(truncated at zero, as the unsigned source arithmetic is). -/
def WheelState.getUnusedPoints (s : WheelState) : Nat :=
  s.totalPoints - (Finset.univ.sum fun i => s.m_wheelSlots i)

/-- Modelled from the spec: the body of
`PlayerWheel::checkSavePointsBySlotType` is not among the provided sources.
Spec §4.1: validates a proposed new value for one slot against the per-slot
cap and the unused-point budget; returns `false` with no mutation on
violation, otherwise replaces the slot's previous value in place. -/
def checkSavePointsBySlotType (s : WheelState) (slotType : Fin 37) (points : Nat) :
    Bool × WheelState :=
  let oldPoints := s.m_wheelSlots slotType
  if points ≤ s.maxPointsPerSlot slotType ∧ points ≤ oldPoints + s.getUnusedPoints then
    (true, { s with m_wheelSlots := fun i => if i = slotType then points else s.m_wheelSlots i })
  else
    (false, s)

/-- `SlotInfo`, the entry type of the retry table: one slot→points change
request (modelled from the spec's "a list of slot→points changes"). -/
structure SlotInfo where
  slot : Nat
  points : Nat
deriving DecidableEq, Repr

/-- Modelled from the spec and the header's doc comment: the body of
`PlayerWheel::saveSlotPointsHandleRetryErrors` is not among the provided
sources.  One pass: iterate over the retry table and attempt to save each
entry (`attempt` abstracts the save call's success); a success decrements the
error counter, a failure carries the entry into the table for the next pass. -/
def saveSlotPointsHandleRetryErrors (attempt : SlotInfo → Bool) :
    List SlotInfo → Int → List SlotInfo × Int
  | [], errors => ([], errors)
  | entry :: rest, errors =>
    if attempt entry then
      saveSlotPointsHandleRetryErrors attempt rest (errors - 1)
    else
      let (table, errs) := saveSlotPointsHandleRetryErrors attempt rest errors
      (entry :: table, errs)

/-- Modelled from the spec: the caller's retry-pass loop (§4.1).  `attempt p e`
is the outcome of the save call for entry `e` during pass number `p`; passes
are numbered from `firstPass` upward, and `n` passes are run. -/
def runRetryPasses (attempt : Nat → SlotInfo → Bool) :
    Nat → Nat → List SlotInfo → Int → List SlotInfo × Int
  | _, 0, table, errors => (table, errors)
  | firstPass, n + 1, table, errors =>
    let (table2, errors2) := saveSlotPointsHandleRetryErrors (attempt firstPass) table errors
    runRetryPasses attempt (firstPass + 1) n table2 errors2

/-- One gem of the vault as the gem-vault operations see it: the durable gem
record plus the domain it currently sits in (spec §4.2: `switchGemDomain`
"toggles a gem between its two usable domains", modelled as a boolean). -/
structure GemEntry where
  gem : PlayerWheelGem
  domain : Bool
deriving DecidableEq, Repr

/-- Modelled from the spec: the body of `PlayerWheel::destroyGem` is not among
the provided sources.  Spec §4.2: removes the gem at the given vault index;
fails as a no-op if the gem is locked. -/
def destroyGem (vault : List GemEntry) (index : Nat) : List GemEntry :=
  match vault[index]? with
  | none => vault
  | some entry => if entry.gem.locked then vault else vault.eraseIdx index

/-- Modelled from the spec: the body of `PlayerWheel::switchGemDomain` is not
among the provided sources.  Spec §4.2: toggles the gem at the given vault
index between its two usable domains; fails as a no-op if the gem is locked. -/
def switchGemDomain (vault : List GemEntry) (index : Nat) : List GemEntry :=
  match vault[index]? with
  | none => vault
  | some entry =>
    if entry.gem.locked then vault
    else vault.set index { entry with domain := !entry.domain }

/-- Modelled from the spec: the body of `PlayerWheel::toggleGemLock` is not
among the provided sources.  Spec §4.2: flips the lock flag of the gem at the
given vault index. -/
def toggleGemLock (vault : List GemEntry) (index : Nat) : List GemEntry :=
  match vault[index]? with
  | none => vault
  | some entry =>
    vault.set index { entry with gem := { entry.gem with locked := !entry.gem.locked } }

/-! ## Claims about gem persistence -/

/-- C3: serializing a `PlayerWheelGem` and deserializing the result under the
same uuid yields a record identical to the original, for every combination of
gem fields. -/
theorem gem_serialize_deserialize_roundtrip (g : PlayerWheelGem) :
    PlayerWheelGem.deserialize g.uuid (PlayerWheelGem.serialize g) = g := by
  cases g
  simp [PlayerWheelGem.serialize, PlayerWheelGem.deserialize, Value.getMap,
    mapGetBool, mapGetInt, mapLookup, Value.getBool, Value.getInt]

/-- C4: `PlayerWheelGem::load` returns the deserialized gem (the record built
from the stored map and the lookup uuid) when the key holds a well-formed
(non-empty-map) value, and returns the empty sentinel gem — never a failure
signal — when the key is absent or the stored value is malformed (an empty
map). -/
theorem load_returns_gem_or_sentinel (kv : String → Option Value) (uuid : String) :
    (kv uuid = none → PlayerWheelGem.load kv uuid = PlayerWheelGem.empty) ∧
    (∀ val, kv uuid = some val → (Value.getMap val).isEmpty = true →
      PlayerWheelGem.load kv uuid = PlayerWheelGem.empty) ∧
    (∀ val, kv uuid = some val → (Value.getMap val).isEmpty = false →
      PlayerWheelGem.load kv uuid =
        { uuid := uuid
          locked := mapGetBool (Value.getMap val) "locked"
          affinity := mapGetInt (Value.getMap val) "affinity"
          quality := mapGetInt (Value.getMap val) "quality"
          basicModifier1 := mapGetInt (Value.getMap val) "basicModifier1"
          basicModifier2 := mapGetInt (Value.getMap val) "basicModifier2"
          supremeModifier := mapGetInt (Value.getMap val) "supremeModifier" }) := by
  refine ⟨fun h => ?_, fun val h hm => ?_, fun val h hm => ?_⟩
  · simp [PlayerWheelGem.load, h]
  · simp [PlayerWheelGem.load, h, PlayerWheelGem.deserialize, hm]
  · simp [PlayerWheelGem.load, h, PlayerWheelGem.deserialize, hm]

/-- Witness for C4 at a concrete store: the key "a" holds a well-formed map,
the key "b" holds an empty map, the key "c" is absent. -/
theorem load_returns_gem_or_sentinel_witness :
    ((fun k => if k = "a" then some (Value.map [("locked", Value.boolean true)])
               else if k = "b" then some (Value.map []) else none) "c" = none
      ∧ PlayerWheelGem.load
          (fun k => if k = "a" then some (Value.map [("locked", Value.boolean true)])
                    else if k = "b" then some (Value.map []) else none) "c"
          = PlayerWheelGem.empty) ∧
    (PlayerWheelGem.load
        (fun k => if k = "a" then some (Value.map [("locked", Value.boolean true)])
                  else if k = "b" then some (Value.map []) else none) "b"
        = PlayerWheelGem.empty) ∧
    (PlayerWheelGem.load
        (fun k => if k = "a" then some (Value.map [("locked", Value.boolean true)])
                  else if k = "b" then some (Value.map []) else none) "a"
        = { uuid := "a", locked := true, affinity := 0, quality := 0
            basicModifier1 := 0, basicModifier2 := 0, supremeModifier := 0 }) := by
  refine ⟨⟨by simp, ?_⟩, ?_, ?_⟩
  · exact (load_returns_gem_or_sentinel _ "c").1 (by simp)
  · exact (load_returns_gem_or_sentinel _ "b").2.1 (Value.map []) (by simp) (by simp [Value.getMap])
  · have := (load_returns_gem_or_sentinel
      (fun k => if k = "a" then some (Value.map [("locked", Value.boolean true)])
                else if k = "b" then some (Value.map []) else none) "a").2.2
      (Value.map [("locked", Value.boolean true)]) (by simp) (by simp [Value.getMap])
    simpa [mapGetBool, mapGetInt, mapLookup, Value.getMap, Value.getBool, Value.getInt] using this

/-- C10: the gem returned by `PlayerWheelGem::load` carries the uuid passed as
the lookup key, and deserialization depends only on the six modifier keys the
source reads — the stored "uuid" entry (written by `serialize`) is ignored, so
a stored "uuid" differing from the key never surfaces to callers. -/
theorem load_uuid_comes_from_key (kv : String → Option Value) (u : String)
    (m1 m2 : List (String × Value))
    (h : kv u = some (Value.map m1))
    (h1 : m1.isEmpty = false) (h2 : m2.isEmpty = false)
    (hagree : ∀ k, k ∈ ["locked", "affinity", "quality", "basicModifier1",
      "basicModifier2", "supremeModifier"] → mapLookup m1 k = mapLookup m2 k) :
    (PlayerWheelGem.load kv u).uuid = u ∧
    PlayerWheelGem.load kv u = PlayerWheelGem.deserialize u (Value.map m2) := by
  have e1 : PlayerWheelGem.load kv u = PlayerWheelGem.deserialize u (Value.map m1) := by
    simp [PlayerWheelGem.load, h]
  have key : ∀ k, k ∈ ["locked", "affinity", "quality", "basicModifier1",
      "basicModifier2", "supremeModifier"] →
      mapGetBool m1 k = mapGetBool m2 k ∧ mapGetInt m1 k = mapGetInt m2 k := by
    intro k hk
    rw [mapGetBool, mapGetInt, mapGetBool, mapGetInt, hagree k hk]
    exact ⟨rfl, rfl⟩
  constructor
  · rw [e1]
    simp [PlayerWheelGem.deserialize, Value.getMap, h1]
  · rw [e1]
    have hL := (key "locked" (by simp)).1
    have hA := (key "affinity" (by simp)).2
    have hQ := (key "quality" (by simp)).2
    have hB1 := (key "basicModifier1" (by simp)).2
    have hB2 := (key "basicModifier2" (by simp)).2
    have hS := (key "supremeModifier" (by simp)).2
    simp [PlayerWheelGem.deserialize, Value.getMap, h1, h2, hL, hA, hQ, hB1, hB2, hS]

/-- Witness for C10: a store where the map at key "gem-key" records the
conflicting uuid "other" — the loaded gem still carries "gem-key", and the
result agrees with deserializing the same map with its "uuid" entry removed. -/
theorem load_uuid_comes_from_key_witness :
    (PlayerWheelGem.load
        (fun k => if k = "gem-key"
          then some (Value.map [("uuid", Value.str "other"), ("locked", Value.boolean true)])
          else none) "gem-key").uuid = "gem-key" ∧
    PlayerWheelGem.load
        (fun k => if k = "gem-key"
          then some (Value.map [("uuid", Value.str "other"), ("locked", Value.boolean true)])
          else none) "gem-key"
      = PlayerWheelGem.deserialize "gem-key" (Value.map [("locked", Value.boolean true)]) :=
  load_uuid_comes_from_key _ "gem-key"
    [("uuid", Value.str "other"), ("locked", Value.boolean true)]
    [("locked", Value.boolean true)]
    (by simp) (by simp) (by simp)
    (by intro k hk; fin_cases hk <;> simp [mapLookup])

/-! ## Claims about per-spell bonuses -/

/-- Helper: collapsing the thirteen in-place updates of `addSpellBonus` when
the spell already has a record. -/
theorem addSpellBonus_apply_of_some (m : SpellBonusMap) (name : String) (b old : Bonus)
    (h : m name = some old) :
    addSpellBonus m name b name = some
      { decrease :=
          { cooldown := old.decrease.cooldown + b.decrease.cooldown
            manaCost := old.decrease.manaCost + b.decrease.manaCost
            secondaryGroupCooldown :=
              old.decrease.secondaryGroupCooldown + b.decrease.secondaryGroupCooldown }
        increase :=
          { aditionalTarget := old.increase.aditionalTarget + b.increase.aditionalTarget
            area := b.increase.area
            criticalChance := old.increase.criticalChance + b.increase.criticalChance
            criticalDamage := old.increase.criticalDamage + b.increase.criticalDamage
            damage := old.increase.damage + b.increase.damage
            damageReduction := old.increase.damageReduction + b.increase.damageReduction
            duration := old.increase.duration + b.increase.duration
            heal := old.increase.heal + b.increase.heal }
        leech :=
          { life := old.leech.life + b.leech.life
            mana := old.leech.mana + b.leech.mana } } := by
  simp [addSpellBonus, h, mapUpdate]

/-- Helper: `addSpellBonus` leaves every other spell name untouched. -/
theorem addSpellBonus_apply_of_ne (m : SpellBonusMap) (name k : String) (b : Bonus)
    (hne : k ≠ name) : addSpellBonus m name b k = m k := by
  by_cases h : (m name).isSome <;> simp [addSpellBonus, h, mapUpdate, mapInsert, hne]

/-- Helper: `addSpellBonus` on an absent spell name stores the incoming
record. -/
theorem addSpellBonus_apply_of_none (m : SpellBonusMap) (name : String) (b : Bonus)
    (h : m name = none) : addSpellBonus m name b name = some b := by
  simp [addSpellBonus, h, mapInsert]

/-- C1: when a record already exists for the spell name, `addSpellBonus`
merges the incoming bonus into it field by field — addition for every numeric
field, plain overwrite for the area flag; when no record exists, the stored
record becomes exactly the incoming bonus. -/
theorem addSpellBonus_merges_or_inserts (m : SpellBonusMap) (name : String) (b : Bonus) :
    (∀ old, m name = some old → addSpellBonus m name b name = some
      { decrease :=
          { cooldown := old.decrease.cooldown + b.decrease.cooldown
            manaCost := old.decrease.manaCost + b.decrease.manaCost
            secondaryGroupCooldown :=
              old.decrease.secondaryGroupCooldown + b.decrease.secondaryGroupCooldown }
        increase :=
          { aditionalTarget := old.increase.aditionalTarget + b.increase.aditionalTarget
            area := b.increase.area
            criticalChance := old.increase.criticalChance + b.increase.criticalChance
            criticalDamage := old.increase.criticalDamage + b.increase.criticalDamage
            damage := old.increase.damage + b.increase.damage
            damageReduction := old.increase.damageReduction + b.increase.damageReduction
            duration := old.increase.duration + b.increase.duration
            heal := old.increase.heal + b.increase.heal }
        leech :=
          { life := old.leech.life + b.leech.life
            mana := old.leech.mana + b.leech.mana } }) ∧
    (m name = none → addSpellBonus m name b name = some b) :=
  ⟨fun old h => addSpellBonus_apply_of_some m name b old h,
   fun h => addSpellBonus_apply_of_none m name b h⟩

/-- Witness for C1: merging the zero bonus into an existing zero record keeps
the zero record; inserting into an empty map stores the incoming bonus. -/
theorem addSpellBonus_merges_or_inserts_witness :
    ((fun k => if k = "x" then some Bonus.default else none) "x" = some Bonus.default
      ∧ addSpellBonus (fun k => if k = "x" then some Bonus.default else none) "x"
          Bonus.default "x" = some Bonus.default) ∧
    ((fun _ => (none : Option Bonus)) "y" = none
      ∧ addSpellBonus (fun _ => none) "y" Bonus.default "y" = some Bonus.default) := by
  constructor
  · refine ⟨by simp, ?_⟩
    have := (addSpellBonus_merges_or_inserts
      (fun k => if k = "x" then some Bonus.default else none) "x" Bonus.default).1
      Bonus.default (by simp)
    simpa [Bonus.default] using this
  · exact ⟨rfl, (addSpellBonus_merges_or_inserts (fun _ => none) "y" Bonus.default).2 rfl⟩

/-- C2 counterexample: a later merge does reset one contribution — the area
flag.  A first merge establishes `increase.area = true` for "spell"; a second
merge with an incoming record whose area flag is false overwrites it, losing
the earlier contribution. -/
theorem later_merge_resets_area_flag :
    (addSpellBonus (fun _ => none) "spell"
        { Bonus.default with increase.area := true } "spell").map
        (fun r => r.increase.area) = some true ∧
    (addSpellBonus
        (addSpellBonus (fun _ => none) "spell" { Bonus.default with increase.area := true })
        "spell" Bonus.default "spell").map
        (fun r => r.increase.area) = some false := by
  constructor
  · simp [addSpellBonus, mapInsert]
  · simp [addSpellBonus, mapInsert, mapUpdate, Bonus.default]

/-- C2 (amended): repeated merges accumulate every numeric field additively
into the single record for the spell name — two merges from an empty map give
exactly the field-wise sums — while the area flag carries the most recent
merge's value. -/
theorem addSpellBonus_accumulates (name : String) (b1 b2 : Bonus) :
    addSpellBonus (addSpellBonus (fun _ => none) name b1) name b2 name = some
      { decrease :=
          { cooldown := b1.decrease.cooldown + b2.decrease.cooldown
            manaCost := b1.decrease.manaCost + b2.decrease.manaCost
            secondaryGroupCooldown :=
              b1.decrease.secondaryGroupCooldown + b2.decrease.secondaryGroupCooldown }
        increase :=
          { aditionalTarget := b1.increase.aditionalTarget + b2.increase.aditionalTarget
            area := b2.increase.area
            criticalChance := b1.increase.criticalChance + b2.increase.criticalChance
            criticalDamage := b1.increase.criticalDamage + b2.increase.criticalDamage
            damage := b1.increase.damage + b2.increase.damage
            damageReduction := b1.increase.damageReduction + b2.increase.damageReduction
            duration := b1.increase.duration + b2.increase.duration
            heal := b1.increase.heal + b2.increase.heal }
        leech :=
          { life := b1.leech.life + b2.leech.life
            mana := b1.leech.mana + b2.leech.mana } } := by
  have h1 : addSpellBonus (fun _ => none) name b1 name = some b1 :=
    addSpellBonus_apply_of_none (fun _ => none) name b1 rfl
  exact addSpellBonus_apply_of_some _ name b2 b1 h1

/-- C9: `getSpellBonus` returns 0 when the spell name has no record; when a
record exists it dispatches on the requested boost kind to the corresponding
field of the record (0 for an enumerator outside the dispatch table). -/
theorem getSpellBonus_dispatch (m : SpellBonusMap) (name : String) :
    (m name = none → ∀ boost, getSpellBonus m name boost = 0) ∧
    (∀ b, m name = some b →
      getSpellBonus m name WheelSpellBoost.cooldown = b.decrease.cooldown ∧
      getSpellBonus m name WheelSpellBoost.mana = b.decrease.manaCost ∧
      getSpellBonus m name WheelSpellBoost.secondaryGroupCooldown
        = b.decrease.secondaryGroupCooldown ∧
      getSpellBonus m name WheelSpellBoost.criticalChance = b.increase.criticalChance ∧
      getSpellBonus m name WheelSpellBoost.criticalDamage = b.increase.criticalDamage ∧
      getSpellBonus m name WheelSpellBoost.damage = b.increase.damage ∧
      getSpellBonus m name WheelSpellBoost.damageReduction = b.increase.damageReduction ∧
      getSpellBonus m name WheelSpellBoost.heal = b.increase.heal ∧
      getSpellBonus m name WheelSpellBoost.lifeLeech = b.leech.life ∧
      getSpellBonus m name WheelSpellBoost.manaLeech = b.leech.mana ∧
      getSpellBonus m name WheelSpellBoost.other = 0) := by
  constructor
  · intro h boost
    simp [getSpellBonus, h]
  · intro b h
    refine ⟨?_, ?_, ?_, ?_, ?_, ?_, ?_, ?_, ?_, ?_, ?_⟩ <;> simp [getSpellBonus, h]

/-- Witness for C9 at a concrete map holding one record for "x" and nothing
for "y". -/
theorem getSpellBonus_dispatch_witness :
    getSpellBonus (fun k => if k = "x" then some Bonus.default else none) "y"
      WheelSpellBoost.damage = 0 ∧
    getSpellBonus (fun k => if k = "x" then some Bonus.default else none) "x"
      WheelSpellBoost.damage = Bonus.default.increase.damage := by
  constructor
  · exact (getSpellBonus_dispatch (fun k => if k = "x" then some Bonus.default else none)
      "y").1 (by simp) WheelSpellBoost.damage
  · exact ((getSpellBonus_dispatch (fun k => if k = "x" then some Bonus.default else none)
      "x").2 Bonus.default (by simp)).2.2.2.2.2.1

/-! ## Claims about wheel points and slot validation -/

/-- C6: the base total of wheel points is
`max(0, level − minLevelToStartCountPoints) × pointsPerLevel`; extra points
are added only when `includeExtraPoints` is true; with the source's constants
(threshold 50, one point per level) a level-50 player gets 0 base points and a
level-60 player gets 10. -/
theorem getWheelPoints_spec :
    (∀ level extra, getWheelPoints level extra false
      = (max ((level : Int) - (m_minLevelToStartCountPoints : Int)) 0).toNat
          * m_pointsPerLevel) ∧
    (∀ level extra, getWheelPoints level extra true
      = getWheelPoints level extra false + extra) ∧
    (∀ extra, getWheelPoints 50 extra false = 0) ∧
    (∀ extra, getWheelPoints 60 extra false = 10) := by
  refine ⟨fun level extra => ?_, fun level extra => ?_, fun extra => ?_, fun extra => ?_⟩
  · simp only [getWheelPoints, m_minLevelToStartCountPoints, m_pointsPerLevel,
      if_neg Bool.false_ne_true, Nat.add_zero]
    omega
  · simp [getWheelPoints]
  · simp [getWheelPoints, m_minLevelToStartCountPoints, m_pointsPerLevel]
  · simp [getWheelPoints, m_minLevelToStartCountPoints, m_pointsPerLevel]

/-- C7: whenever `checkSavePointsBySlotType` returns `false`, the slot
allocation state is left unchanged. -/
theorem checkSavePointsBySlotType_no_mutation_on_false (s : WheelState)
    (slotType : Fin 37) (points : Nat)
    (h : (checkSavePointsBySlotType s slotType points).1 = false) :
    (checkSavePointsBySlotType s slotType points).2 = s := by
  by_cases hc : points ≤ s.maxPointsPerSlot slotType
      ∧ points ≤ s.m_wheelSlots slotType + s.getUnusedPoints
  · simp [checkSavePointsBySlotType, hc] at h
  · simp [checkSavePointsBySlotType, hc]

/-- Witness for C7: proposing 6 points for a slot capped at 5 is rejected and
the state is returned untouched. -/
theorem checkSavePointsBySlotType_no_mutation_on_false_witness :
    (checkSavePointsBySlotType
        { m_wheelSlots := fun _ => 0, maxPointsPerSlot := fun _ => 5, totalPoints := 10 }
        ⟨1, by decide⟩ 6).1 = false ∧
    (checkSavePointsBySlotType
        { m_wheelSlots := fun _ => 0, maxPointsPerSlot := fun _ => 5, totalPoints := 10 }
        ⟨1, by decide⟩ 6).2
      = { m_wheelSlots := fun _ => 0, maxPointsPerSlot := fun _ => 5, totalPoints := 10 } := by
  have hf : (checkSavePointsBySlotType
      { m_wheelSlots := fun _ => 0, maxPointsPerSlot := fun _ => 5, totalPoints := 10 }
      ⟨1, by decide⟩ 6).1 = false := by
    simp [checkSavePointsBySlotType]
  exact ⟨hf, checkSavePointsBySlotType_no_mutation_on_false _ _ _ hf⟩

/-! ## Claims about gem locking -/

/-- C8: a locked gem makes `destroyGem` and `switchGemDomain` no-ops; after
`toggleGemLock` clears the flag, the gem at that vault index is unlocked and
both operations act on it (destroy removes it, switch toggles its domain). -/
theorem locked_gem_rejects_destroy_and_switch (vault : List GemEntry) (i : Nat)
    (entry : GemEntry) (hv : vault[i]? = some entry) (hl : entry.gem.locked = true) :
    destroyGem vault i = vault ∧
    switchGemDomain vault i = vault ∧
    (toggleGemLock vault i)[i]?
      = some { entry with gem := { entry.gem with locked := false } } ∧
    destroyGem (toggleGemLock vault i) i = (toggleGemLock vault i).eraseIdx i ∧
    switchGemDomain (toggleGemLock vault i) i
      = (toggleGemLock vault i).set i
          { gem := { entry.gem with locked := false }, domain := !entry.domain } := by
  have hlen : i < vault.length := (List.getElem?_eq_some.mp hv).1
  have htoggle : toggleGemLock vault i
      = vault.set i { entry with gem := { entry.gem with locked := false } } := by
    simp [toggleGemLock, hv, hl]
  have hv2 : (toggleGemLock vault i)[i]?
      = some { entry with gem := { entry.gem with locked := false } } := by
    rw [htoggle, List.getElem?_set_self]
    exact hlen
  refine ⟨?_, ?_, hv2, ?_, ?_⟩
  · simp [destroyGem, hv, hl]
  · simp [switchGemDomain, hv, hl]
  · simp [destroyGem, hv2]
  · simp [switchGemDomain, hv2]

/-- Witness for C8 on a one-gem vault holding a locked empty gem. -/
theorem locked_gem_rejects_destroy_and_switch_witness :
    ([⟨{ PlayerWheelGem.empty with locked := true }, false⟩] :
        List GemEntry)[0]? = some ⟨{ PlayerWheelGem.empty with locked := true }, false⟩ ∧
    destroyGem [⟨{ PlayerWheelGem.empty with locked := true }, false⟩] 0
      = [⟨{ PlayerWheelGem.empty with locked := true }, false⟩] ∧
    destroyGem (toggleGemLock [⟨{ PlayerWheelGem.empty with locked := true }, false⟩] 0) 0
      = (toggleGemLock [⟨{ PlayerWheelGem.empty with locked := true }, false⟩] 0).eraseIdx 0 := by
  have h := locked_gem_rejects_destroy_and_switch
    [⟨{ PlayerWheelGem.empty with locked := true }, false⟩] 0
    ⟨{ PlayerWheelGem.empty with locked := true }, false⟩ rfl rfl
  exact ⟨rfl, h.1, h.2.2.2.1⟩

/-! ## Claims about the save retry loop -/

/-- Helper: one retry pass keeps exactly the failing entries, in order, and
decrements the error counter once per success. -/
theorem saveSlotPointsHandleRetryErrors_eq (attempt : SlotInfo → Bool)
    (table : List SlotInfo) : ∀ errors : Int,
    saveSlotPointsHandleRetryErrors attempt table errors
      = (table.filter (fun e => !attempt e), errors - table.countP attempt) := by
  induction table with
  | nil => intro errors; simp [saveSlotPointsHandleRetryErrors]
  | cons e rest ih =>
    intro errors
    by_cases h : attempt e
    · simp only [saveSlotPointsHandleRetryErrors, h, if_pos, ih, List.filter_cons,
        Bool.not_true, List.countP_cons]
      simp [h]
      omega
    · simp only [saveSlotPointsHandleRetryErrors, h, ih, List.filter_cons,
        List.countP_cons]
      simp [h]

/-- Helper: passes over an empty retry table change nothing. -/
theorem runRetryPasses_nil (attempt : Nat → SlotInfo → Bool) :
    ∀ n fp : Nat, ∀ errors : Int,
    runRetryPasses attempt fp n [] errors = ([], errors) := by
  intro n
  induction n with
  | zero => intro fp errors; rfl
  | succ n ih =>
    intro fp errors
    simp [runRetryPasses, saveSlotPointsHandleRetryErrors, ih]

/-- Helper: a single retried entry whose save succeeds exactly at pass `k`:
running `n` passes starting from pass number `fp ≤ k` empties the table and
zeroes the counter exactly when pass `k` has been run. -/
theorem runRetryPasses_single (k : Nat) (slot : SlotInfo) :
    ∀ n fp : Nat, fp ≤ k →
    runRetryPasses (fun p _ => decide (p = k)) fp n [slot] 1
      = if k < fp + n then ([], 0) else ([slot], 1) := by
  intro n
  induction n with
  | zero =>
    intro fp hfp
    rw [if_neg (by omega)]
    rfl
  | succ n ih =>
    intro fp hfp
    by_cases h : fp = k
    · subst h
      rw [if_pos (by omega)]
      simp [runRetryPasses, saveSlotPointsHandleRetryErrors_eq, runRetryPasses_nil]
    · have hlt : fp < k := lt_of_le_of_ne hfp h
      simp only [runRetryPasses, saveSlotPointsHandleRetryErrors_eq]
      simp only [List.filter_cons, List.countP_cons, List.countP_nil, List.filter_nil,
        decide_eq_true_eq, h, if_false, Bool.not_false, Nat.cast_zero, sub_zero,
        decide_eq_false h, Bool.not_true]
      norm_num
      rw [ih (fp + 1) (by omega)]
      by_cases hc : k < fp + (n + 1)
      · rw [if_pos (by omega), if_pos (by omega)]
      · rw [if_neg (by omega), if_neg (by omega)]

/-- C5: in each retry pass every entry of the current retry list is attempted
once — successes decrement the error counter and leave the list, failures are
carried into the next pass's list — and for a save sequence whose attempt `k`
is the first to succeed, the error counter reaches zero within `k` passes and
never earlier. -/
theorem retry_pass_spec (attempt : SlotInfo → Bool) (table : List SlotInfo)
    (errors : Int) (slot : SlotInfo) (k : Nat) (hk : 1 ≤ k) :
    saveSlotPointsHandleRetryErrors attempt table errors
      = (table.filter (fun e => !attempt e), errors - table.countP attempt) ∧
    (∀ n, (runRetryPasses (fun p _ => decide (p = k)) 1 n [slot] 1).2
      = if k ≤ n then 0 else 1) := by
  refine ⟨saveSlotPointsHandleRetryErrors_eq attempt table errors, fun n => ?_⟩
  rw [runRetryPasses_single k slot n 1 hk]
  by_cases hc : k ≤ n
  · rw [if_pos (by omega), if_pos hc]
  · rw [if_neg (by omega), if_neg hc]

/-- Witness for C5: one entry whose save fails at pass 1 and succeeds at pass
2 — one pass leaves the counter at 1, two passes bring it to 0; a failing pass
keeps the entry in the list. -/
theorem retry_pass_spec_witness :
    (1 : Nat) ≤ 2 ∧
    saveSlotPointsHandleRetryErrors (fun _ => false) [⟨1, 2⟩] 1 = ([⟨1, 2⟩], 1) ∧
    (runRetryPasses (fun p _ => decide (p = 2)) 1 1 [⟨1, 2⟩] 1).2 = 1 ∧
    (runRetryPasses (fun p _ => decide (p = 2)) 1 2 [⟨1, 2⟩] 1).2 = 0 := by
  have h := retry_pass_spec (fun _ => false) [⟨1, 2⟩] 1 ⟨1, 2⟩ 2 (by decide)
  refine ⟨by decide, by simpa using h.1, ?_, ?_⟩
  · have := h.2 1
    simpa using this
  · have := h.2 2
    simpa using this
